import Mathlib

/-!
Verification of the better-auth extensible request-handling core.

The repository source under version control here exposes only the
`betterAuth` factory (`src/unnamed/part_000`): it builds an auth context
via `init`, composes a `router` from the options (which carry an ordered
plugin list), and returns `{ handler, api, options }`.  The engine the
factory composes — context builder, hook chain runner, endpoint registry,
database lifecycle hook runner and router/dispatcher — is described in
the specification (spec.md §§3–7) but its implementation files are not
part of this snapshot, so those components are modelled from the spec,
and the factory is embedded directly from the source.
-/

/-- Process-wide read-only shared state (secrets, registered cookie
names, configuration).  Modelled from the spec: the implementation of the
shared-state struct is not in the snapshot; spec.md §3 describes it as a
process-wide configuration reference established once at startup. -/
structure SharedState where
  secret : String
  cookieNames : List String
  config : List (String × String)
  deriving Repr, DecidableEq

/-- An HTTP-like inbound request (method, path, headers, body, query,
cookies).  Modelled from the spec: spec.md §6 (external interfaces); the
raw body may be absent or malformed, represented as an `Option`. -/
structure Request where
  path : String
  method : String
  rawBody : Option (List (String × String))
  headers : List (String × String)
  query : List (String × String)
  cookies : List (String × String)
  deriving Repr, DecidableEq

/-- An HTTP-like response (status, headers, body).  Modelled from the
spec: spec.md §6. -/
structure Response where
  status : Nat
  headers : List (String × String)
  body : String
  deriving Repr, DecidableEq

/-- A structured error carried by hook aborts and endpoint failures
(status plus message, as in the documented `APIError`).  Modelled from
the spec: spec.md §7. -/
structure HookError where
  status : Nat
  message : String
  deriving Repr, DecidableEq

/-- The per-request context envelope: path, method, parsed body, headers,
query, cookies and the read-only shared-state reference.  Modelled from
the spec: spec.md §3 (Context). -/
structure Context where
  path : String
  method : String
  body : List (String × String)
  headers : List (String × String)
  query : List (String × String)
  cookies : List (String × String)
  sharedState : SharedState
  deriving Repr, DecidableEq

/-- Context Builder (spec.md §4.1).  Modelled from the spec: the builder
implementation is not in the snapshot.  Pure transformation of a raw
request plus shared state into exactly one Context; a malformed/absent
body degrades gracefully to an empty body representation. -/
def buildContext (req : Request) (shared : SharedState) : Context :=
  { path := req.path
    method := req.method
    body := req.rawBody.getD []
    headers := req.headers
    query := req.query
    cookies := req.cookies
    sharedState := shared }

/-- A partial context replacement returned by a before-hook, shallow-merged
into the context for subsequent stages.  Modelled from the spec: spec.md §3
(hooks may return a partial replacement; `sharedState` is not patchable). -/
structure ContextPatch where
  path : Option String := none
  method : Option String := none
  body : Option (List (String × String)) := none
  headers : Option (List (String × String)) := none
  query : Option (List (String × String)) := none
  cookies : Option (List (String × String)) := none
  deriving Repr, DecidableEq

/-- Shallow-merge a partial replacement into a context.  Modelled from the
spec: spec.md §3. -/
def applyPatch (ctx : Context) (p : ContextPatch) : Context :=
  { ctx with
    path := p.path.getD ctx.path
    method := p.method.getD ctx.method
    body := p.body.getD ctx.body
    headers := p.headers.getD ctx.headers
    query := p.query.getD ctx.query
    cookies := p.cookies.getD ctx.cookies }

/-- HookResult (spec.md §3): continue unchanged, continue with context
patch, short-circuit with response, or abort with error.  Modelled from
the spec. -/
inductive HookResult where
  | proceed : HookResult
  | patch : ContextPatch → HookResult
  | shortCircuit : Response → HookResult
  | abort : HookError → HookResult

/-- A before-hook: a function from the current context to a HookResult.
Modelled from the spec: spec.md §4.2. -/
abbrev BeforeHook : Type := Context → HookResult

/-- The result of an after-hook invocation: continue, replace the
response, short-circuit with a wholly new final response, or abort.
Modelled from the spec: spec.md §4.2. -/
inductive AfterResult where
  | proceed : AfterResult
  | replace : Response → AfterResult
  | shortCircuit : Response → AfterResult
  | abort : HookError → AfterResult

/-- An after-hook receives the context and the response produced so far.
Modelled from the spec: spec.md §4.2. -/
abbrev AfterHook : Type := Context → Response → AfterResult

/-- An endpoint: a named, path-and-method-bound unit of request-handling
logic; `wildcard` endpoints match any path they are a string-prefix of
(catch-all auth route mounting).  Modelled from the spec: spec.md §3 and
§4.3. -/
structure Endpoint where
  name : String
  path : String
  method : String
  wildcard : Bool
  handler : Context → Except HookError Response

/-- The (path, method) identity of an endpoint; registering two endpoints
with the same key is a configuration error.  Modelled from the spec:
spec.md §3 (Endpoint identity). -/
def routeKey (e : Endpoint) : String × String := (e.path, e.method)

/-- ConfigurationError (spec.md §7): duplicate routes detected at
startup, fatal.  Modelled from the spec. -/
inductive ConfigurationError where
  | duplicateRoute : String → String → ConfigurationError
  deriving Repr, DecidableEq

/-- A plugin: a name, an ordered list of contributed endpoints, an
optional before/after hook pair scoped to its own endpoints, and optional
schema-extension field declarations.  Modelled from the spec: spec.md §6
(plugin contract). -/
structure Plugin where
  name : String
  endpoints : List Endpoint
  beforeHooks : List BeforeHook
  afterHooks : List AfterHook
  schemaFields : List (String × String)

/-- Endpoint registry state: the ordered list of registered endpoints.
Modelled from the spec: spec.md §4.3. -/
abbrev Registry : Type := List Endpoint

/-- Does the registry already hold an endpoint at this (path, method)?
Modelled from the spec: spec.md §4.3. -/
def hasRoute (r : Registry) (e : Endpoint) : Bool :=
  r.any (fun x => x.path == e.path && x.method == e.method)

/-- `register(endpoint)`: adds an endpoint, failing with a duplicate-route
ConfigurationError if its (path, method) already exists.  Modelled from
the spec: spec.md §4.3. -/
def register (r : Registry) (e : Endpoint) : Except ConfigurationError Registry :=
  if hasRoute r e then
    .error (.duplicateRoute e.path e.method)
  else
    .ok (r ++ [e])

/-- Register a list of endpoints in order, stopping at the first
collision.  Modelled from the spec: spec.md §4.3. -/
def registerAll (r : Registry) (es : List Endpoint) : Except ConfigurationError Registry :=
  match es with
  | [] => .ok r
  | e :: rest =>
    match register r e with
    | .ok r2 => registerAll r2 rest
    | .error err => .error err

/-- `merge(plugins)`: iterate plugins in order registering each plugin's
endpoints; the first collision is a fatal initialization error.  Modelled
from the spec: spec.md §4.3. -/
def mergePlugins (r : Registry) (ps : List Plugin) : Except ConfigurationError Registry :=
  match ps with
  | [] => .ok r
  | p :: rest =>
    match registerAll r p.endpoints with
    | .ok r2 => mergePlugins r2 rest
    | .error err => .error err

/-- Build the full registry at startup: core endpoints first, then the
ordered plugin list.  Modelled from the spec: spec.md §4.3. -/
def buildRegistry (core : List Endpoint) (ps : List Plugin) : Except ConfigurationError Registry :=
  match registerAll [] core with
  | .ok r => mergePlugins r ps
  | .error err => .error err

/-- Exact route match: non-wildcard endpoint whose path and method equal
the query.  Modelled from the spec: spec.md §4.3. -/
def matchesExact (e : Endpoint) (path method : String) : Bool :=
  !e.wildcard && e.path == path && e.method == method

/-- Wildcard route match: wildcard endpoint whose path is a string-prefix
of the query path, same method.  Modelled from the spec: spec.md §4.3. -/
def matchesWildcard (e : Endpoint) (path method : String) : Bool :=
  e.wildcard && e.path.data.isPrefixOf path.data && e.method == method

/-- `lookup(path, method)`: the matched endpoint or a "not found"
sentinel (`none`); exact matches are searched before wildcard matches, so
exact always wins.  Modelled from the spec: spec.md §4.3. -/
def lookup (r : Registry) (path method : String) : Option Endpoint :=
  match r.find? (fun e => matchesExact e path method) with
  | some e => some e
  | none => r.find? (fun e => matchesWildcard e path method)

/-- An event in the per-request execution trace, recording which stage ran
and the context it received (after hooks also record the response seen).
Modelled from the spec: instrumentation of spec.md §4.2 and §4.5 hook and
endpoint invocation order. -/
inductive TraceEvent where
  | beforeHook : Nat → Context → TraceEvent
  | endpointCall : Context → TraceEvent
  | afterHook : Nat → Context → Response → TraceEvent
  deriving Repr, DecidableEq

/-- The outcome of a before-hook chain: continue with the accumulated
context, short-circuit with a response, or abort at index `i` with an
error.  Modelled from the spec: spec.md §3 (HookResult terminal states)
and §4.2. -/
inductive ChainOutcome where
  | continued : Context → ChainOutcome
  | shortCircuited : Response → ChainOutcome
  | aborted : Nat → HookError → ChainOutcome
  deriving Repr, DecidableEq

/-- Hook Chain Runner, before chains (spec.md §4.2).  Modelled from the
spec: executes hooks in order from index `i`, each receiving the current
context (already reflecting prior patches), stopping at the first
short-circuit or abort; returns the invocation trace and the outcome. -/
def runBefore (hooks : List BeforeHook) (i : Nat) (ctx : Context) :
    List TraceEvent × ChainOutcome :=
  match hooks with
  | [] => ([], .continued ctx)
  | h :: rest =>
    match h ctx with
    | .proceed =>
      let r := runBefore rest (i + 1) ctx
      (.beforeHook i ctx :: r.1, r.2)
    | .patch p =>
      let r := runBefore rest (i + 1) (applyPatch ctx p)
      (.beforeHook i ctx :: r.1, r.2)
    | .shortCircuit resp => ([.beforeHook i ctx], .shortCircuited resp)
    | .abort e => ([.beforeHook i ctx], .aborted i e)

/-- The outcome of an after-hook chain: the final response, or an abort.
Modelled from the spec: spec.md §4.2 (after chains). -/
inductive AfterOutcome where
  | done : Response → AfterOutcome
  | aborted : Nat → HookError → AfterOutcome
  deriving Repr, DecidableEq

/-- Hook Chain Runner, after chains (spec.md §4.2).  Modelled from the
spec: each after-hook receives the context and the response produced so
far; replace substitutes the response and continues, short-circuit
replaces the final response outright and stops the chain. -/
def runAfter (hooks : List AfterHook) (i : Nat) (ctx : Context) (resp : Response) :
    List TraceEvent × AfterOutcome :=
  match hooks with
  | [] => ([], .done resp)
  | h :: rest =>
    match h ctx resp with
    | .proceed =>
      let r := runAfter rest (i + 1) ctx resp
      (.afterHook i ctx resp :: r.1, r.2)
    | .replace resp2 =>
      let r := runAfter rest (i + 1) ctx resp2
      (.afterHook i ctx resp :: r.1, r.2)
    | .shortCircuit resp2 => ([.afterHook i ctx resp], .done resp2)
    | .abort e => ([.afterHook i ctx resp], .aborted i e)

/-- Classification carried by a terminal ERRORED dispatcher state.
Modelled from the spec: spec.md §7 error taxonomy (not-found, hook abort,
structured endpoint error). -/
inductive ErrorClass where
  | notFound : ErrorClass
  | hookAbort : HookError → ErrorClass
  | endpointError : HookError → ErrorClass
  deriving Repr, DecidableEq

/-- Terminal dispatcher result: RESPONDED with a response, or ERRORED
with a classified error.  Modelled from the spec: spec.md §4.5. -/
inductive DispatchResult where
  | responded : Response → DispatchResult
  | errored : ErrorClass → DispatchResult
  deriving Repr, DecidableEq

/-- Router/Dispatcher (spec.md §4.5).  Modelled from the spec: an
unmatched route yields ERRORED not-found before any hook runs; otherwise
the context is built, before-hooks run (short-circuit goes straight to
RESPONDED, abort to ERRORED), the matched endpoint is invoked with the
accumulated context (a structured error maps to ERRORED), and after-hooks
run over the endpoint's response.  Returns the result and the full
invocation trace. -/
def dispatch (reg : Registry) (beforeHooks : List BeforeHook)
    (afterHooks : List AfterHook) (shared : SharedState) (req : Request) :
    DispatchResult × List TraceEvent :=
  match lookup reg req.path req.method with
  | none => (.errored .notFound, [])
  | some ep =>
    let ctx := buildContext req shared
    match runBefore beforeHooks 0 ctx with
    | (t, .aborted _ e) => (.errored (.hookAbort e), t)
    | (t, .shortCircuited resp) => (.responded resp, t)
    | (t, .continued c) =>
      match ep.handler c with
      | .error e => (.errored (.endpointError e), t ++ [.endpointCall c])
      | .ok resp =>
        match runAfter afterHooks 0 c resp with
        | (t2, .done resp2) =>
          (.responded resp2, t ++ [.endpointCall c] ++ t2)
        | (t2, .aborted _ e) =>
          (.errored (.hookAbort e), t ++ [.endpointCall c] ++ t2)

/-- LifecycleHookOutcome (spec.md §3): proceed with the original payload,
proceed with a replacement payload, or abort the operation.  Modelled
from the spec. -/
inductive LifecycleHookOutcome (α : Type) where
  | proceed : LifecycleHookOutcome α
  | replace : α → LifecycleHookOutcome α
  | abort : HookError → LifecycleHookOutcome α

/-- HookAbortError (spec.md §7): a lifecycle or before-hook explicitly
aborted; carries the status/message the hook specified.  Modelled from
the spec. -/
structure HookAbortError where
  err : HookError
  deriving Repr, DecidableEq

/-- The before/after hook pair registered for one entity kind's create
operation; the after-hook's return value is advisory only.  Modelled from
the spec: spec.md §4.4 (single hook each, no chain list). -/
structure EntityCreateHooks (α : Type) where
  beforeCreate : Option (α → LifecycleHookOutcome α)
  afterCreate : Option (α → Option α)

/-- The state of the persistence collaborator, as the list of records it
has been asked to persist (most recent first).  Modelled from the spec:
spec.md §6 (database adapter collaborator, out of scope, injected). -/
structure DbState (α : Type) where
  records : List α

/-- Database Lifecycle Hook Runner for a create operation (spec.md §4.4).
Modelled from the spec: the persistence collaborator is an injected
function `persistFn`; the before-hook (if registered) runs first — abort
means the persistence layer is never invoked and the caller receives a
HookAbortError; a replacement payload is what gets persisted; the
after-hook runs on success and its return value does not alter the
committed entity. -/
def createWithHooks {α : Type} (hooks : EntityCreateHooks α)
    (persistFn : DbState α → α → DbState α) (db : DbState α) (payload : α) :
    DbState α × Except HookAbortError α :=
  match hooks.beforeCreate with
  | none => (persistFn db payload, .ok payload)
  | some bh =>
    match bh payload with
    | .abort e => (db, .error ⟨e⟩)
    | .replace p2 => (persistFn db p2, .ok p2)
    | .proceed => (persistFn db payload, .ok payload)

/-- The entity kinds wrapped by database lifecycle hooks.  Modelled from
the spec: spec.md §4.4 (user, session, account). -/
inductive EntityKind where
  | user : EntityKind
  | session : EntityKind
  | account : EntityKind
  deriving Repr, DecidableEq

/-- The registered database hooks, one create-hook pair per entity kind.
Modelled from the spec: spec.md §4.4. -/
structure DatabaseHooks (α : Type) where
  hooksFor : EntityKind → EntityCreateHooks α

/-- A database create operation on a named entity kind, wrapped by the
lifecycle hook runner.  Modelled from the spec: spec.md §4.4. -/
def dbCreate {α : Type} (dh : DatabaseHooks α)
    (persistFn : DbState α → α → DbState α) (k : EntityKind)
    (db : DbState α) (payload : α) : DbState α × Except HookAbortError α :=
  createWithHooks (dh.hooksFor k) persistFn db payload

/-- The per-process engine: the read-only shared state, the registry
built once at initialization, and the global hook chains.  Modelled from
the spec: spec.md §5 (each request is one independent execution; requests
share only this read-only structure). -/
structure Server where
  shared : SharedState
  registry : Registry
  beforeHooks : List BeforeHook
  afterHooks : List AfterHook

/-- Handle one request against the engine.  Modelled from the spec:
spec.md §4.5 and §5. -/
def handle (s : Server) (req : Request) : DispatchResult × List TraceEvent :=
  dispatch s.registry s.beforeHooks s.afterHooks s.shared req

/-- Process a sequence of requests, threading the server through: each
request is one independent execution over the read-only server.  Modelled
from the spec: spec.md §5 (concurrency and resource model). -/
def processAll (s : Server) : List Request → List (DispatchResult × List TraceEvent)
  | [] => []
  | r :: rs => handle s r :: processAll s rs

/-- The options argument accepted by the `betterAuth` factory: the
ordered plugin list, global hooks, database lifecycle hooks and
configuration.  The `BetterAuthOptions` type itself is imported in
`src/unnamed/part_000` from a types module not in the snapshot; its
fields follow the documented configuration surface. -/
structure BetterAuthOptions where
  plugins : List Plugin
  hooksBefore : List BeforeHook
  hooksAfter : List AfterHook
  databaseHooks : DatabaseHooks (List (String × String))
  secret : String
  database : String

/-- The pair destructured from `router(authContext, options)` in
`src/unnamed/part_000`: `const { handler, endpoints } = router(...)`. -/
structure RouterOutput (H E : Type) where
  handler : H
  endpoints : E

/-- The object returned by `betterAuth` in `src/unnamed/part_000`:
`{ handler, api, options }`. -/
structure BetterAuthResult (H E : Type) where
  handler : H
  api : E
  options : BetterAuthOptions

/-- The `betterAuth` factory, embedded from `src/unnamed/part_000` lines
7–24.  `init` and `router` are imported collaborators (`./init`,
`./api`), not in the snapshot, so they are parameters here.  The source
computes `authContext = init(options)`, destructures
`router(authContext, options)`, and returns `{ handler, api: endpoints
as Endpoint & PluginEndpoint, options }`; the `as` cast is a static-type
assertion with no runtime content, so `api` is the `endpoints` value
itself. -/
def betterAuth {C H E : Type} (init : BetterAuthOptions → C)
    (router : C → BetterAuthOptions → RouterOutput H E)
    (options : BetterAuthOptions) : BetterAuthResult H E :=
  let authContext := init options
  let r := router authContext options
  { handler := r.handler, api := r.endpoints, options := options }

/-- The (path, method) keys of a registered endpoint list, in order.
Modelled from the spec: spec.md §3 (endpoint identity). -/
def routeKeys (r : List Endpoint) : List (String × String) := r.map routeKey

/-- All endpoints contributed by an ordered plugin list, in plugin order.
Modelled from the spec: spec.md §4.3. -/
def allEndpoints : List Plugin → List Endpoint
  | [] => []
  | p :: rest => p.endpoints ++ allEndpoints rest

/-- A concrete shared state used in witness scenarios. -/
def sharedState0 : SharedState :=
  { secret := "s3cret", cookieNames := ["session_token"], config := [] }

/-- A request matching no registered route. -/
def reqNoRoute : Request :=
  { path := "/no/such/route", method := "GET", rawBody := none,
    headers := [], query := [], cookies := [] }

/-- A sign-up request with a parsed body. -/
def reqSignUp : Request :=
  { path := "/sign-up/email", method := "POST",
    rawBody := some [("email", "ada@example.com"), ("name", "Ada")],
    headers := [], query := [], cookies := [] }

/-- A core sign-up endpoint; its handler echoes the body's name field. -/
def epSignUp : Endpoint :=
  { name := "signUpEmail", path := "/sign-up/email", method := "POST",
    wildcard := false,
    handler := fun ctx =>
      .ok { status := 200, headers := [], body := (ctx.body.lookup "name").getD "" } }

/-- A plugin endpoint colliding with `epSignUp` at the same (path, method). -/
def epSignUpDup : Endpoint :=
  { name := "conflictingSignUp", path := "/sign-up/email", method := "POST",
    wildcard := false,
    handler := fun _ => .ok { status := 200, headers := [], body := "dup" } }

/-- A catch-all wildcard endpoint mounted under the sign-up path. -/
def epCatchAll : Endpoint :=
  { name := "catchAll", path := "/sign-up", method := "POST", wildcard := true,
    handler := fun _ => .ok { status := 200, headers := [], body := "catch-all" } }

/-- A plugin whose only endpoint collides with the core sign-up route. -/
def pluginDup : Plugin :=
  { name := "duplicator", endpoints := [epSignUpDup],
    beforeHooks := [], afterHooks := [], schemaFields := [] }

/-- A before-hook that aborts every request. -/
def abortHook : BeforeHook := fun _ => .abort { status := 400, message := "rejected" }

/-- A before-hook that continues unchanged. -/
def proceedHook : BeforeHook := fun _ => .proceed

/-- A partial context replacement setting the body name field to X. -/
def namePatch : ContextPatch := { body := some [("name", "X")] }

/-- A before-hook returning the name-setting context patch. -/
def patchNameHook : BeforeHook := fun _ => .patch namePatch

/-- An after-hook that adds a custom header to the response. -/
def addHeaderHook : AfterHook := fun _ resp =>
  .replace { resp with headers := ("X-Custom-Header", "Hello World") :: resp.headers }

/-- A concrete user entity record, used to check lifecycle hooks
field-for-field. -/
structure UserRecord where
  name : String
  email : String
  deriving Repr, DecidableEq

/-- A user-create before-hook: aborts on a missing email, otherwise
replaces the payload with a normalized copy. -/
def userCreateBefore (u : UserRecord) : LifecycleHookOutcome UserRecord :=
  if u.email == "" then .abort { status := 400, message := "email required" }
  else .replace { u with name := "Normalized " ++ u.name }

/-- Concrete database hooks: a before/after pair on user creation, none
on sessions or accounts. -/
def dbHooks0 : DatabaseHooks UserRecord :=
  { hooksFor := fun k =>
      match k with
      | .user => { beforeCreate := some userCreateBefore, afterCreate := some (fun _ => none) }
      | .session => { beforeCreate := none, afterCreate := none }
      | .account => { beforeCreate := none, afterCreate := none } }

/-- A persistence collaborator that records each persisted payload. -/
def persistCons {α : Type} (db : DbState α) (p : α) : DbState α :=
  { records := p :: db.records }

/-- An empty persistence state. -/
def emptyDb {α : Type} : DbState α := { records := [] }

theorem hasRoute_false_not_mem (r : Registry) (e : Endpoint)
    (h : hasRoute r e = false) : routeKey e ∉ routeKeys r := by
  intro hmem
  simp only [routeKeys, List.mem_map] at hmem
  obtain ⟨x, hx, hkey⟩ := hmem
  simp only [hasRoute, List.any_eq_false, Bool.and_eq_true, beq_iff_eq, not_and] at h
  have hx2 := h x hx
  simp only [routeKey, Prod.mk.injEq] at hkey
  exact hx2 hkey.1 hkey.2

theorem registerAll_ok (es : List Endpoint) : ∀ (r r2 : Registry),
    registerAll r es = Except.ok r2 → (routeKeys r).Nodup →
    r2 = r ++ es ∧ (routeKeys r2).Nodup := by
  induction es with
  | nil =>
    intro r r2 h hn
    simp only [registerAll] at h
    cases h
    exact ⟨by simp, hn⟩
  | cons e rest ih =>
    intro r r2 h hn
    by_cases hr : hasRoute r e = true
    · simp only [registerAll, register, hr, if_true] at h
      exact Except.noConfusion h
    · have hr2 : hasRoute r e = false := by
        cases hv : hasRoute r e
        · rfl
        · exact absurd hv hr
      simp only [registerAll, register, hr2, Bool.false_eq_true, if_false] at h
      have hnotmem : routeKey e ∉ routeKeys r := hasRoute_false_not_mem r e hr2
      have hn2 : (routeKeys (r ++ [e])).Nodup := by
        simp only [routeKeys, List.map_append, List.map_cons, List.map_nil]
        rw [List.nodup_append]
        refine ⟨hn, List.nodup_singleton _, ?hd⟩
        intro a ha hb
        simp only [List.mem_singleton] at hb
        subst hb
        exact hnotmem ha
      obtain ⟨heq, hnd⟩ := ih (r ++ [e]) r2 h hn2
      exact ⟨by rw [heq]; simp, hnd⟩

theorem mergePlugins_ok (ps : List Plugin) : ∀ (r r2 : Registry),
    mergePlugins r ps = Except.ok r2 → (routeKeys r).Nodup →
    r2 = r ++ allEndpoints ps ∧ (routeKeys r2).Nodup := by
  induction ps with
  | nil =>
    intro r r2 h hn
    simp only [mergePlugins] at h
    cases h
    exact ⟨by simp [allEndpoints], hn⟩
  | cons p rest ih =>
    intro r r2 h hn
    cases hreg : registerAll r p.endpoints with
    | error err =>
      simp only [mergePlugins, hreg] at h
      exact Except.noConfusion h
    | ok r1 =>
      simp only [mergePlugins, hreg] at h
      obtain ⟨heq1, hnd1⟩ := registerAll_ok p.endpoints r r1 hreg hn
      obtain ⟨heq2, hnd2⟩ := ih r1 r2 h hnd1
      subst heq1
      exact ⟨by rw [heq2]; simp [allEndpoints], hnd2⟩

/-- C1: for every initialization in which two endpoints — core versus
plugin or plugin versus plugin, in any plugin order — are registered at
the same (path, method) pair (stated as: the combined route-key list is
not duplicate-free), endpoint registration fails with a
ConfigurationError and `buildRegistry` refuses to produce a registry, so
no route is silently shadowed. -/
theorem duplicate_route_rejected (core : List Endpoint) (ps : List Plugin)
    (hdup : ¬ (routeKeys (core ++ allEndpoints ps)).Nodup) :
    ∃ err, buildRegistry core ps = Except.error err := by
  cases hb : buildRegistry core ps with
  | error err => exact ⟨err, rfl⟩
  | ok r2 =>
    exfalso
    unfold buildRegistry at hb
    cases hcore : registerAll [] core with
    | error err => rw [hcore] at hb; cases hb
    | ok r1 =>
      rw [hcore] at hb
      obtain ⟨heq1, hnd1⟩ := registerAll_ok core [] r1 hcore (by simp [routeKeys])
      obtain ⟨heq2, hnd2⟩ := mergePlugins_ok ps r1 r2 hb hnd1
      apply hdup
      rw [heq1] at heq2
      simp only [List.nil_append] at heq2
      rw [← heq2]
      exact hnd2

theorem duplicate_route_rejected_witness :
    ¬ (routeKeys ([epSignUp] ++ allEndpoints [pluginDup])).Nodup
    ∧ ∃ err, buildRegistry [epSignUp] [pluginDup] = Except.error err :=
  ⟨by decide, duplicate_route_rejected [epSignUp] [pluginDup] (by decide)⟩

/-- C7: for every registry state and every (path, method) query, `lookup`
returns a matched endpoint or the not-found sentinel `none` — anything it
returns is a registered endpoint matching the query, and `none` means
nothing matches — and whenever both an exact-match endpoint and a
wildcard-match endpoint exist for the same path, `lookup` returns an
exact match (wildcard has lowest priority). -/
theorem lookup_exact_wins (r : Registry) (path method : String) :
    (∀ e, lookup r path method = some e →
      e ∈ r ∧ (matchesExact e path method = true ∨ matchesWildcard e path method = true))
    ∧ (lookup r path method = none →
      ∀ e ∈ r, matchesExact e path method = false ∧ matchesWildcard e path method = false)
    ∧ ((∃ e ∈ r, matchesExact e path method = true) →
      (∃ e ∈ r, matchesWildcard e path method = true) →
      ∃ e, lookup r path method = some e ∧ matchesExact e path method = true) := by
  refine ⟨?sound, ?complete, ?exactWins⟩
  case sound =>
    intro e h
    unfold lookup at h
    cases hf : r.find? (fun x => matchesExact x path method) with
    | some a =>
      rw [hf] at h
      cases h
      exact ⟨List.mem_of_find?_eq_some hf, Or.inl (by simpa using List.find?_some hf)⟩
    | none =>
      rw [hf] at h
      exact ⟨List.mem_of_find?_eq_some h, Or.inr (by simpa using List.find?_some h)⟩
  case complete =>
    intro h e he
    unfold lookup at h
    cases hf : r.find? (fun x => matchesExact x path method) with
    | some a =>
      rw [hf] at h
      exact Option.noConfusion h
    | none =>
      rw [hf] at h
      constructor
      · have hx := List.find?_eq_none.mp hf e he
        simpa using hx
      · have hx := List.find?_eq_none.mp h e he
        simpa using hx
  case exactWins =>
    intro hex _hwild
    have hsome : (r.find? (fun x => matchesExact x path method)).isSome := by
      rw [List.find?_isSome]
      obtain ⟨e, he, hm⟩ := hex
      exact ⟨e, he, by simpa using hm⟩
    obtain ⟨e, hf⟩ := Option.isSome_iff_exists.mp hsome
    refine ⟨e, ?heq, by simpa using List.find?_some hf⟩
    unfold lookup
    rw [hf]

theorem lookup_exact_wins_witness :
    (∃ e ∈ ([epCatchAll, epSignUp] : Registry), matchesExact e "/sign-up/email" "POST" = true)
    ∧ (∃ e ∈ ([epCatchAll, epSignUp] : Registry), matchesWildcard e "/sign-up/email" "POST" = true)
    ∧ ∃ e, lookup [epCatchAll, epSignUp] "/sign-up/email" "POST" = some e
        ∧ matchesExact e "/sign-up/email" "POST" = true := by
  have hex : ∃ e ∈ ([epCatchAll, epSignUp] : Registry), matchesExact e "/sign-up/email" "POST" = true :=
    ⟨epSignUp, List.mem_cons_of_mem _ (List.mem_cons_self _ _), by decide⟩
  have hwild : ∃ e ∈ ([epCatchAll, epSignUp] : Registry), matchesWildcard e "/sign-up/email" "POST" = true :=
    ⟨epCatchAll, List.mem_cons_self _ _, by decide⟩
  exact ⟨hex, hwild,
    (lookup_exact_wins [epCatchAll, epSignUp] "/sign-up/email" "POST").2.2 hex hwild⟩

/-- C6: for every request whose path and method match no registered
endpoint, the Dispatcher yields the terminal ERRORED result with the
not-found classification, and the trace is empty — no before-hook or
after-hook is ever invoked for that request. -/
theorem unmatched_route_no_hooks (reg : Registry) (bh : List BeforeHook)
    (ah : List AfterHook) (shared : SharedState) (req : Request)
    (h : lookup reg req.path req.method = none) :
    dispatch reg bh ah shared req = (.errored .notFound, []) := by
  unfold dispatch
  rw [h]

theorem unmatched_route_no_hooks_witness :
    lookup [epSignUp] reqNoRoute.path reqNoRoute.method = none
    ∧ dispatch [epSignUp] [abortHook] [addHeaderHook] sharedState0 reqNoRoute
      = (.errored .notFound, []) :=
  ⟨rfl, unmatched_route_no_hooks [epSignUp] [abortHook] [addHeaderHook]
    sharedState0 reqNoRoute rfl⟩

theorem runBefore_events_are_before (hooks : List BeforeHook) :
    ∀ (i : Nat) (ctx : Context) (ev : TraceEvent),
    ev ∈ (runBefore hooks i ctx).1 → ∃ k c, ev = TraceEvent.beforeHook k c := by
  induction hooks with
  | nil =>
    intro i ctx ev hev
    simp [runBefore] at hev
  | cons hk rest ih =>
    intro i ctx ev hev
    cases hres : hk ctx
    case proceed =>
      simp only [runBefore, hres] at hev
      rcases List.mem_cons.mp hev with heq | hmem
      · exact ⟨i, ctx, heq⟩
      · exact ih (i + 1) ctx ev hmem
    case patch p =>
      simp only [runBefore, hres] at hev
      rcases List.mem_cons.mp hev with heq | hmem
      · exact ⟨i, ctx, heq⟩
      · exact ih (i + 1) (applyPatch ctx p) ev hmem
    case shortCircuit resp =>
      simp only [runBefore, hres, List.mem_singleton] at hev
      exact ⟨i, ctx, hev⟩
    case abort e =>
      simp only [runBefore, hres, List.mem_singleton] at hev
      exact ⟨i, ctx, hev⟩

theorem runBefore_abort_bounds (hooks : List BeforeHook) :
    ∀ (i : Nat) (ctx : Context) (t : List TraceEvent) (j : Nat) (e : HookError),
    runBefore hooks i ctx = (t, .aborted j e) →
    i ≤ j ∧ ∀ k c, TraceEvent.beforeHook k c ∈ t → i ≤ k ∧ k ≤ j := by
  induction hooks with
  | nil =>
    intro i ctx t j e h
    simp [runBefore] at h
  | cons hk rest ih =>
    intro i ctx t j e h
    cases hres : hk ctx
    case proceed =>
      simp only [runBefore, hres, Prod.mk.injEq] at h
      obtain ⟨ht, ho⟩ := h
      have hrec : runBefore rest (i + 1) ctx
          = ((runBefore rest (i + 1) ctx).1, ChainOutcome.aborted j e) := by
        rw [← ho]
      obtain ⟨hij, hbounds⟩ := ih (i + 1) ctx (runBefore rest (i + 1) ctx).1 j e hrec
      refine ⟨Nat.le_of_succ_le hij, ?_⟩
      intro k c hk2
      rw [← ht] at hk2
      rcases List.mem_cons.mp hk2 with heq | hmem
      · injection heq with hki hc
        omega
      · obtain ⟨h1, h2⟩ := hbounds k c hmem
        omega
    case patch p =>
      simp only [runBefore, hres, Prod.mk.injEq] at h
      obtain ⟨ht, ho⟩ := h
      have hrec : runBefore rest (i + 1) (applyPatch ctx p)
          = ((runBefore rest (i + 1) (applyPatch ctx p)).1, ChainOutcome.aborted j e) := by
        rw [← ho]
      obtain ⟨hij, hbounds⟩ :=
        ih (i + 1) (applyPatch ctx p) (runBefore rest (i + 1) (applyPatch ctx p)).1 j e hrec
      refine ⟨Nat.le_of_succ_le hij, ?_⟩
      intro k c hk2
      rw [← ht] at hk2
      rcases List.mem_cons.mp hk2 with heq | hmem
      · injection heq with hki hc
        omega
      · obtain ⟨h1, h2⟩ := hbounds k c hmem
        omega
    case shortCircuit resp =>
      simp only [runBefore, hres, Prod.mk.injEq] at h
      exact absurd h.2 (by simp)
    case abort e0 =>
      simp only [runBefore, hres, Prod.mk.injEq, ChainOutcome.aborted.injEq] at h
      obtain ⟨ht, hji, _⟩ := h
      subst hji
      refine ⟨Nat.le_refl i, ?_⟩
      intro k c hk2
      rw [← ht] at hk2
      simp only [List.mem_singleton] at hk2
      injection hk2 with hki hc
      omega

/-- C2: for every before-hook chain, if the chain aborts at index `i`
(hook `i` returned an abort result after hooks `0..i-1` continued), then
hooks `i+1..n` are never executed (every before-hook event in the trace
has index at most `i`), the matched endpoint is never invoked, no
after-hook runs, and the dispatcher immediately propagates the error to
the caller as a terminal hook-abort ERRORED result. -/
theorem before_abort_stops_processing (reg : Registry) (bh : List BeforeHook)
    (ah : List AfterHook) (shared : SharedState) (req : Request) (ep : Endpoint)
    (t : List TraceEvent) (i : Nat) (e : HookError)
    (hmatch : lookup reg req.path req.method = some ep)
    (habort : runBefore bh 0 (buildContext req shared) = (t, .aborted i e)) :
    dispatch reg bh ah shared req = (.errored (.hookAbort e), t)
    ∧ (∀ k c, TraceEvent.beforeHook k c ∈ t → k ≤ i)
    ∧ (∀ c, TraceEvent.endpointCall c ∉ t)
    ∧ (∀ k c r2, TraceEvent.afterHook k c r2 ∉ t) := by
  have ht : t = (runBefore bh 0 (buildContext req shared)).1 := by rw [habort]
  refine ⟨?_, ?_, ?_, ?_⟩
  · simp only [dispatch, hmatch, habort]
  · intro k c hk
    exact ((runBefore_abort_bounds bh 0 (buildContext req shared) t i e habort).2 k c hk).2
  · intro c hc
    rw [ht] at hc
    obtain ⟨k, c2, heq⟩ := runBefore_events_are_before bh 0 (buildContext req shared) _ hc
    exact TraceEvent.noConfusion heq
  · intro k c r2 hc
    rw [ht] at hc
    obtain ⟨k2, c2, heq⟩ := runBefore_events_are_before bh 0 (buildContext req shared) _ hc
    exact TraceEvent.noConfusion heq

theorem before_abort_stops_processing_witness :
    lookup [epSignUp] reqSignUp.path reqSignUp.method = some epSignUp
    ∧ runBefore [abortHook, proceedHook] 0 (buildContext reqSignUp sharedState0)
      = ([TraceEvent.beforeHook 0 (buildContext reqSignUp sharedState0)],
         .aborted 0 ⟨400, "rejected"⟩)
    ∧ (dispatch [epSignUp] [abortHook, proceedHook] [addHeaderHook] sharedState0 reqSignUp
        = (.errored (.hookAbort ⟨400, "rejected"⟩),
           [TraceEvent.beforeHook 0 (buildContext reqSignUp sharedState0)])
      ∧ (∀ k c, TraceEvent.beforeHook k c
          ∈ [TraceEvent.beforeHook 0 (buildContext reqSignUp sharedState0)] → k ≤ 0)
      ∧ (∀ c, TraceEvent.endpointCall c
          ∉ [TraceEvent.beforeHook 0 (buildContext reqSignUp sharedState0)])
      ∧ (∀ k c r2, TraceEvent.afterHook k c r2
          ∉ [TraceEvent.beforeHook 0 (buildContext reqSignUp sharedState0)])) :=
  ⟨rfl, rfl,
    before_abort_stops_processing [epSignUp] [abortHook, proceedHook] [addHeaderHook]
      sharedState0 reqSignUp epSignUp
      [TraceEvent.beforeHook 0 (buildContext reqSignUp sharedState0)] 0
      ⟨400, "rejected"⟩ rfl rfl⟩

theorem runAfter_events_ctx (hooks : List AfterHook) :
    ∀ (i : Nat) (ctx : Context) (resp : Response) (k : Nat) (c : Context) (r2 : Response),
    TraceEvent.afterHook k c r2 ∈ (runAfter hooks i ctx resp).1 → c = ctx := by
  induction hooks with
  | nil =>
    intro i ctx resp k c r2 hmem
    simp [runAfter] at hmem
  | cons hk rest ih =>
    intro i ctx resp k c r2 hmem
    cases hres : hk ctx resp
    case proceed =>
      simp only [runAfter, hres] at hmem
      rcases List.mem_cons.mp hmem with heq | hmem2
      · injection heq with h1 h2 h3
      · exact ih (i + 1) ctx resp k c r2 hmem2
    case replace resp2 =>
      simp only [runAfter, hres] at hmem
      rcases List.mem_cons.mp hmem with heq | hmem2
      · injection heq with h1 h2 h3
      · exact ih (i + 1) ctx resp2 k c r2 hmem2
    case shortCircuit resp2 =>
      simp only [runAfter, hres, List.mem_singleton] at hmem
      injection hmem with h1 h2 h3
    case abort e =>
      simp only [runAfter, hres, List.mem_singleton] at hmem
      injection hmem with h1 h2 h3

theorem runBefore_all_proceed (hooks : List BeforeHook) :
    ∀ (i : Nat) (ctx : Context),
    (∀ g ∈ hooks, ∀ c, g c = HookResult.proceed) →
    (runBefore hooks i ctx).2 = .continued ctx := by
  induction hooks with
  | nil => intro i ctx _; rfl
  | cons hk rest ih =>
    intro i ctx hall
    have hh : hk ctx = HookResult.proceed := hall hk (List.mem_cons_self _ _) ctx
    simp only [runBefore, hh]
    exact ih (i + 1) ctx (fun g hg c => hall g (List.mem_cons_of_mem _ hg) c)

/-- C3: a context patch returned by a before-hook is reflected downstream
in the same request.  First conjunct: when hook `i` returns a patch, the
remaining chain (hook `i+1` onward) runs from exactly the patched
context, so hook `i+1` receives it.  Second conjunct: if the remaining
hooks continue unchanged, the chain completes with exactly the patched
context.  Third conjunct: whenever a before chain continue-completes with
context `c`, the endpoint is invoked with `c` and every after-hook of the
request receives `c` (e.g. hook `i` sets body.name to X; the endpoint
observes body.name = X). -/
theorem patch_visible_downstream (hk : BeforeHook) (rest : List BeforeHook)
    (i : Nat) (ctx : Context) (p : ContextPatch)
    (hp : hk ctx = HookResult.patch p) :
    runBefore (hk :: rest) i ctx
      = (TraceEvent.beforeHook i ctx :: (runBefore rest (i + 1) (applyPatch ctx p)).1,
         (runBefore rest (i + 1) (applyPatch ctx p)).2)
    ∧ ((∀ g ∈ rest, ∀ c, g c = HookResult.proceed) →
        (runBefore (hk :: rest) i ctx).2 = .continued (applyPatch ctx p))
    ∧ (∀ (reg : Registry) (bh : List BeforeHook) (ah : List AfterHook)
        (shared : SharedState) (req : Request) (ep : Endpoint)
        (t : List TraceEvent) (c : Context),
        lookup reg req.path req.method = some ep →
        runBefore bh 0 (buildContext req shared) = (t, .continued c) →
        TraceEvent.endpointCall c ∈ (dispatch reg bh ah shared req).2
        ∧ (∀ k c2 r2, TraceEvent.afterHook k c2 r2 ∈ (dispatch reg bh ah shared req).2
            → c2 = c)) := by
  refine ⟨?_, ?_, ?_⟩
  · simp only [runBefore, hp]
  · intro hall
    simp only [runBefore, hp]
    exact runBefore_all_proceed rest (i + 1) (applyPatch ctx p) hall
  · intro reg bh ah shared req ep t c hmatch hrun
    have hbt : ∀ ev ∈ t, ∃ k2 c0, ev = TraceEvent.beforeHook k2 c0 := by
      intro ev hev
      have hev2 : ev ∈ (runBefore bh 0 (buildContext req shared)).1 := by
        rw [hrun]
        exact hev
      exact runBefore_events_are_before bh 0 (buildContext req shared) ev hev2
    cases hh : ep.handler c with
    | error e2 =>
      have h2 : (dispatch reg bh ah shared req).2 = t ++ [TraceEvent.endpointCall c] := by
        simp only [dispatch, hmatch, hrun, hh]
      rw [h2]
      refine ⟨by simp, ?_⟩
      intro k c2 r2 hmem2
      rcases List.mem_append.mp hmem2 with hin | hin
      · obtain ⟨k2, c0, heq⟩ := hbt _ hin
        exact TraceEvent.noConfusion heq
      · simp only [List.mem_singleton] at hin
        exact TraceEvent.noConfusion hin
    | ok resp =>
      rcases hra : runAfter ah 0 c resp with ⟨t2, o⟩
      have hafter : ∀ k c2 r2, TraceEvent.afterHook k c2 r2 ∈ t2 → c2 = c := by
        intro k c2 r2 hin
        have hin2 : TraceEvent.afterHook k c2 r2 ∈ (runAfter ah 0 c resp).1 := by
          rw [hra]
          exact hin
        exact runAfter_events_ctx ah 0 c resp k c2 r2 hin2
      have htail : ∀ k c2 r2,
          TraceEvent.afterHook k c2 r2 ∈ t ++ [TraceEvent.endpointCall c] ++ t2 → c2 = c := by
        intro k c2 r2 hmem2
        rcases List.mem_append.mp hmem2 with hin | hin
        · rcases List.mem_append.mp hin with hin2 | hin2
          · obtain ⟨k2, c0, heq⟩ := hbt _ hin2
            exact TraceEvent.noConfusion heq
          · simp only [List.mem_singleton] at hin2
            exact TraceEvent.noConfusion hin2
        · exact hafter k c2 r2 hin
      cases o with
      | done resp2 =>
        have h2 : (dispatch reg bh ah shared req).2
            = t ++ [TraceEvent.endpointCall c] ++ t2 := by
          simp only [dispatch, hmatch, hrun, hh, hra]
        rw [h2]
        exact ⟨by simp, htail⟩
      | aborted j e2 =>
        have h2 : (dispatch reg bh ah shared req).2
            = t ++ [TraceEvent.endpointCall c] ++ t2 := by
          simp only [dispatch, hmatch, hrun, hh, hra]
        rw [h2]
        exact ⟨by simp, htail⟩

theorem patch_visible_downstream_witness :
    patchNameHook (buildContext reqSignUp sharedState0) = HookResult.patch namePatch
    ∧ (applyPatch (buildContext reqSignUp sharedState0) namePatch).body.lookup "name"
      = some "X"
    ∧ (runBefore (patchNameHook :: []) 0 (buildContext reqSignUp sharedState0)
        = (TraceEvent.beforeHook 0 (buildContext reqSignUp sharedState0)
            :: (runBefore [] (0 + 1)
                (applyPatch (buildContext reqSignUp sharedState0) namePatch)).1,
           (runBefore [] (0 + 1)
              (applyPatch (buildContext reqSignUp sharedState0) namePatch)).2)
      ∧ ((∀ g ∈ ([] : List BeforeHook), ∀ c, g c = HookResult.proceed) →
          (runBefore (patchNameHook :: []) 0 (buildContext reqSignUp sharedState0)).2
            = .continued (applyPatch (buildContext reqSignUp sharedState0) namePatch))
      ∧ (∀ (reg : Registry) (bh : List BeforeHook) (ah : List AfterHook)
          (shared : SharedState) (req : Request) (ep : Endpoint)
          (t : List TraceEvent) (c : Context),
          lookup reg req.path req.method = some ep →
          runBefore bh 0 (buildContext req shared) = (t, .continued c) →
          TraceEvent.endpointCall c ∈ (dispatch reg bh ah shared req).2
          ∧ (∀ k c2 r2, TraceEvent.afterHook k c2 r2 ∈ (dispatch reg bh ah shared req).2
              → c2 = c))) :=
  ⟨rfl, rfl,
    patch_visible_downstream patchNameHook [] 0
      (buildContext reqSignUp sharedState0) namePatch rfl⟩

/-- C4: for every database create operation on an entity kind (user,
session or account), if the registered before-hook returns an abort
outcome, then the persistence collaborator is never invoked — the result
state equals the input state (zero records persisted) for every possible
persistence function — and the caller receives a HookAbortError carrying
the hook's error. -/
theorem dbCreate_abort_no_persist {α : Type} (dh : DatabaseHooks α)
    (persistFn : DbState α → α → DbState α) (k : EntityKind)
    (db : DbState α) (payload : α) (bh : α → LifecycleHookOutcome α) (e : HookError)
    (hreg : (dh.hooksFor k).beforeCreate = some bh)
    (habort : bh payload = .abort e) :
    dbCreate dh persistFn k db payload = (db, .error ⟨e⟩) := by
  simp only [dbCreate, createWithHooks, hreg, habort]

theorem dbCreate_abort_no_persist_witness :
    (dbHooks0.hooksFor EntityKind.user).beforeCreate = some userCreateBefore
    ∧ userCreateBefore ⟨"NoEmail", ""⟩ = .abort ⟨400, "email required"⟩
    ∧ dbCreate dbHooks0 persistCons EntityKind.user emptyDb ⟨"NoEmail", ""⟩
      = (emptyDb, .error ⟨⟨400, "email required"⟩⟩) :=
  ⟨rfl, rfl,
    dbCreate_abort_no_persist dbHooks0 persistCons EntityKind.user emptyDb
      ⟨"NoEmail", ""⟩ userCreateBefore ⟨400, "email required"⟩ rfl rfl⟩

/-- C5: for every database create operation whose before-hook returns a
replacement payload, the payload handed to the persistence collaborator
is exactly the replacement — `persistFn` is applied to the replacement,
not to the original — and the replacement is what the caller gets back. -/
theorem dbCreate_replacement_persisted {α : Type} (dh : DatabaseHooks α)
    (persistFn : DbState α → α → DbState α) (k : EntityKind)
    (db : DbState α) (payload p2 : α) (bh : α → LifecycleHookOutcome α)
    (hreg : (dh.hooksFor k).beforeCreate = some bh)
    (hrep : bh payload = .replace p2) :
    dbCreate dh persistFn k db payload = (persistFn db p2, .ok p2) := by
  simp only [dbCreate, createWithHooks, hreg, hrep]

theorem dbCreate_replacement_persisted_witness :
    (dbHooks0.hooksFor EntityKind.user).beforeCreate = some userCreateBefore
    ∧ userCreateBefore ⟨"Ada", "ada@example.com"⟩
      = .replace ⟨"Normalized Ada", "ada@example.com"⟩
    ∧ dbCreate dbHooks0 persistCons EntityKind.user emptyDb ⟨"Ada", "ada@example.com"⟩
      = (persistCons emptyDb ⟨"Normalized Ada", "ada@example.com"⟩,
         .ok ⟨"Normalized Ada", "ada@example.com"⟩)
    ∧ (persistCons (emptyDb : DbState UserRecord)
        ⟨"Normalized Ada", "ada@example.com"⟩).records
      = [⟨"Normalized Ada", "ada@example.com"⟩]
    ∧ (⟨"Normalized Ada", "ada@example.com"⟩ : UserRecord)
      ≠ ⟨"Ada", "ada@example.com"⟩ :=
  ⟨rfl, rfl,
    dbCreate_replacement_persisted dbHooks0 persistCons EntityKind.user emptyDb
      ⟨"Ada", "ada@example.com"⟩ ⟨"Normalized Ada", "ada@example.com"⟩
      userCreateBefore rfl rfl,
    rfl, by decide⟩

theorem processAll_append (s : Server) (xs ys : List Request) :
    processAll s (xs ++ ys) = processAll s xs ++ processAll s ys := by
  induction xs with
  | nil => rfl
  | cons x xs ih => simp [processAll, ih]

theorem processAll_length (s : Server) (xs : List Request) :
    (processAll s xs).length = xs.length := by
  induction xs with
  | nil => rfl
  | cons x xs ih => simp [processAll, ih]

/-- C8: for every pair of request sequences processed by the same engine,
the outcome of a given request is always `handle s r` — a function of
that request and the read-only server state alone — regardless of which
requests precede or follow it, so context mutations made by hooks or
endpoints while handling one request are not observable while handling
another. -/
theorem no_cross_request_interference (s : Server)
    (pre suf pre2 suf2 : List Request) (r : Request) :
    (processAll s (pre ++ r :: suf))[pre.length]? = some (handle s r)
    ∧ (processAll s (pre ++ r :: suf))[pre.length]?
      = (processAll s (pre2 ++ r :: suf2))[pre2.length]? := by
  have key : ∀ (pr sf : List Request),
      (processAll s (pr ++ r :: sf))[pr.length]? = some (handle s r) := by
    intro pr sf
    have hlen := processAll_length s pr
    rw [processAll_append, List.getElem?_append_right (by rw [hlen]), hlen]
    simp [processAll]
  exact ⟨key pre suf, by rw [key pre suf, key pre2 suf2]⟩

/-- C9: for every options argument, the object returned by `betterAuth`
has an `options` field that is the very argument, unmodified — the
factory reads the options (passing them to `init` and `router`) but
writes no field, so every field of the returned options equals the
corresponding field of the input (src/unnamed/part_000 lines 7–24). -/
theorem betterAuth_preserves_options {C H E : Type} (init : BetterAuthOptions → C)
    (router : C → BetterAuthOptions → RouterOutput H E) (options : BetterAuthOptions) :
    (betterAuth init router options).options = options
    ∧ (betterAuth init router options).options.plugins = options.plugins
    ∧ (betterAuth init router options).options.hooksBefore = options.hooksBefore
    ∧ (betterAuth init router options).options.hooksAfter = options.hooksAfter
    ∧ (betterAuth init router options).options.databaseHooks = options.databaseHooks
    ∧ (betterAuth init router options).options.secret = options.secret
    ∧ (betterAuth init router options).options.database = options.database :=
  ⟨rfl, rfl, rfl, rfl, rfl, rfl, rfl⟩

/-- C10: for every options argument, the `api` field of the object
returned by `betterAuth` is the very `endpoints` value produced by
`router(authContext, options)` — the `as Endpoint & PluginEndpoint` cast
in the source changes only the static type, so no endpoint is added,
removed or wrapped between the router's output and the returned api
(src/unnamed/part_000 lines 17–23). -/
theorem betterAuth_api_is_router_endpoints {C H E : Type}
    (init : BetterAuthOptions → C)
    (router : C → BetterAuthOptions → RouterOutput H E)
    (options : BetterAuthOptions) :
    (betterAuth init router options).api = (router (init options) options).endpoints :=
  rfl
